import Mathlib

/-!
Verification of the session-store, outcome-resolution and metadata logic of
`browser.py` (class `BrowserManager` and the module-level helpers).

The Python code is shallowly embedded: `OrderedDict`/`dict` state becomes
association lists (`List (key × value)`), asynchronous control flow becomes
pure functions over an explicit environment record that fixes the outcome of
every external interaction (what `page.goto` raised, whether a download event
fired during the bounded waits, what the analyzer script returned, ...), and
side effects on the page (listener registration/removal, click attempts,
closed resources) are recorded in the function's output.
-/

namespace Browser

/-! ## Association-list helpers

`self.sessions : OrderedDict[str, Dict]` and `self.session_links :
Dict[str, Dict[int, str]]` are embedded as association lists whose order is
the `OrderedDict` insertion/recency order (head = least recently used).
-/

/-- `d.get(k)` / `k in d` lookup on an association list. -/
def lookupA {κ α : Type} [DecidableEq κ] : List (κ × α) → κ → Option α
  | [], _ => none
  | (k, v) :: rest, key => if key = k then some v else lookupA rest key

/-- Remove the binding of `key` (first occurrence), as `dict.pop(key, None)`. -/
def eraseKey {κ α : Type} [DecidableEq κ] : List (κ × α) → κ → List (κ × α)
  | [], _ => []
  | (k, v) :: rest, key => if key = k then rest else (k, v) :: eraseKey rest key

/-- `d[k] = v`: replace the existing binding in place, else append (dicts keep
insertion order in Python). -/
def setKey {κ α : Type} [DecidableEq κ] : List (κ × α) → κ → α → List (κ × α)
  | [], key, v => [(key, v)]
  | (k, w) :: rest, key, v =>
      if key = k then (k, v) :: rest else (k, w) :: setKey rest key v

/-- The keys of an association list. -/
def keysOf {κ α : Type} (l : List (κ × α)) : List κ := l.map Prod.fst

/-- `OrderedDict.move_to_end(key)`: drop the binding and re-append it at the
most-recently-used end. -/
def moveToEnd {κ α : Type} [DecidableEq κ] (l : List (κ × α)) (key : κ) :
    List (κ × α) :=
  match lookupA l key with
  | some v => eraseKey l key ++ [(key, v)]
  | none => l

/-! ## Data model -/

/-- One `PageSession`: the `{'context': context, 'page': page}` dict stored in
`self.sessions`.  Contexts and pages are identified by the numbers the model
hands out from a fresh-resource counter. -/
structure Session where
  context : Nat
  page : Nat
  deriving DecidableEq, Repr

/-- One session's element index `Dict[int, str]` (element number → xpath). -/
abbrev ElemIndex := List (Nat × String)

/-- The mutable state of a `BrowserManager`: `self.sessions` (LRU order, head
= least recently used), `self.session_links`, and `self.max_sessions`. -/
structure StoreState where
  sessions : List (String × Session)
  sessionLinks : List (String × ElemIndex)
  maxSessions : Nat
  deriving DecidableEq, Repr

/-- Output of one `get_or_create_session` call: the new store, the next fresh
resource id, the returned page (`none` when the call raised — `popitem` on an
empty store, or a close error during eviction propagating out), and the
sessions whose page and context were closed during the call. -/
structure GocOut where
  store : StoreState
  ctr : Nat
  ret : Option Nat
  closed : List (String × Session)
  deriving DecidableEq, Repr

/-- `BrowserManager.get_or_create_session` (browser.py lines 158–184).

* existing id: `move_to_end` and return the stored page;
* otherwise, if at capacity, `popitem(last=False)` the LRU entry, `await`
  the close of its page and context — there is **no** `try/except` here, so a
  close error (`closeErr = some e`) propagates after the pop but before the
  `session_links` cleanup and the creation of the new session — then drop its
  element index;
* finally create a fresh context+page pair and insert it at the MRU end with
  an empty element index.

`ctr` is the fresh-resource counter: the new context gets id `ctr`, the new
page `ctr + 1`. -/
def getOrCreateSession (st : StoreState) (ctr : Nat) (sid : String)
    (closeErr : Option String := none) : GocOut :=
  match lookupA st.sessions sid with
  | some sess =>
      { store := { st with sessions := moveToEnd st.sessions sid },
        ctr := ctr, ret := some sess.page, closed := [] }
  | none =>
      if st.sessions.length ≥ st.maxSessions then
        match st.sessions with
        | [] =>
            -- popitem on an empty OrderedDict raises KeyError
            { store := st, ctr := ctr, ret := none, closed := [] }
        | (oid, odata) :: rest =>
            match closeErr with
            | some _ =>
                -- page.close() raised: the pop already happened, nothing
                -- after line 170 runs, the exception propagates to the caller
                { store := { st with sessions := rest },
                  ctr := ctr, ret := none, closed := [] }
            | none =>
                let st1 : StoreState :=
                  { st with sessions := rest,
                            sessionLinks := eraseKey st.sessionLinks oid }
                let sess : Session := ⟨ctr, ctr + 1⟩
                { store := { st1 with
                    sessions := st1.sessions ++ [(sid, sess)],
                    sessionLinks := setKey st1.sessionLinks sid [] },
                  ctr := ctr + 2, ret := some sess.page,
                  closed := [(oid, odata)] }
      else
        let sess : Session := ⟨ctr, ctr + 1⟩
        { store := { st with
            sessions := st.sessions ++ [(sid, sess)],
            sessionLinks := setKey st.sessionLinks sid [] },
          ctr := ctr + 2, ret := some sess.page, closed := [] }

/-- `BrowserManager.close` (lines 140–156): every session's page and context
are closed inside `try/except` — `closeFails` says which closes raise; raised
errors are logged and swallowed — then both maps are cleared.  The call always
returns normally, whatever `closeFails` is, so the output carries no raised
error at all. -/
def closeAll (st : StoreState) (closeFails : String → Bool) :
    StoreState × List (String × Session) :=
  ({ st with sessions := [], sessionLinks := [] },
   st.sessions.filter fun e => !closeFails e.1)

/-- Run a sequence of `get_or_create_session` calls (every close succeeding),
collecting the store state after each call. -/
def runTrace (st : StoreState) (ctr : Nat) : List String → List StoreState
  | [] => []
  | sid :: rest =>
      let o := getOrCreateSession st ctr sid
      o.store :: runTrace o.store o.ctr rest

/-- Run a sequence of calls, collecting the sessions closed by each call. -/
def runClosed (st : StoreState) (ctr : Nat) :
    List String → List (List (String × Session))
  | [] => []
  | sid :: rest =>
      let o := getOrCreateSession st ctr sid
      o.closed :: runClosed o.store o.ctr rest

/-! ## Element extraction (`extract_and_store_links`, lines 186–241)

The analyzer (`index.js`, external per the spec's §6 contract) returns
`result['map']`: node-id → node record.  Values the code reads are embedded as
`DomNode` fields; the `.get(key, default)` defaults are applied at the use
sites, mirroring the Python.  The `isinstance(node, dict)` guard is vacuous in
the embedding since every map value is a node record, as the analyzer contract
promises. -/

/-- One analyzer node record: the fields `extract_and_store_links` reads.
`Option` mirrors keys that can be absent (`node.get(k)` / `node.get(k, d)`). -/
structure DomNode where
  tagName : Option String
  isInteractive : Bool
  attributes : List (String × String)
  children : List Nat
  xpath : Option String
  nodeType : Option String
  text : Option String
  deriving DecidableEq, Repr

/-- Analyzer output: `result['map']` as an association list id → node. -/
abbrev DomMap := List (Nat × DomNode)

/-- The interactive-node filter (lines 202–203): values of the map, in map
order, that have a truthy `isInteractive`. -/
def interactiveNodes (m : DomMap) : List DomNode :=
  (m.map Prod.snd).filter fun node => node.isInteractive

/-- The `" | {text}"` suffix from the first child when it is a text node
(lines 210–214): `if children := node.get('children')` is truthy only for a
non-empty list, then `result['map'].get(children[0])` must find a (truthy)
record whose `type` is `'TEXT_NODE'`. -/
def childText (m : DomMap) (node : DomNode) : String :=
  match node.children with
  | [] => ""
  | c :: _ =>
      match lookupA m c with
      | some child =>
          if child.nodeType = some "TEXT_NODE" then
            " | " ++ (child.text.getD "")
          else ""
      | none => ""

/-- The `" â†’ {detail}"` suffix (lines 216–220, mojibake as in the source):
`attrs.get('href', '') or attrs.get('class', '')[:30]`. -/
def detailText (node : DomNode) : String :=
  let href := (lookupA node.attributes "href").getD ""
  let detail := if href ≠ "" then href
                else ((lookupA node.attributes "class").getD "").take 30
  if detail ≠ "" then " â†’ " ++ detail else ""

/-- One display element (lines 205–226): the stored xpath and the label
`f"{tag}{detail}{text}"[:200]` with `tag = node.get('tagName', 'element')`. -/
def displayElement (m : DomMap) (node : DomNode) : String × String :=
  (node.xpath.getD "",
   ((node.tagName.getD "element") ++ detailText node ++ childText m node).take 200)

/-- `enumerate(l, start)`: pair each element with its 1-based (or `start`-based)
position. -/
def enumerate1 {α : Type} (start : Nat) : List α → List (Nat × α)
  | [] => []
  | x :: xs => (start, x) :: enumerate1 (start + 1) xs

deriving instance DecidableEq for Except

/-- Output of `extract_and_store_links`: the returned dict (`.ok` with the
numbered display links on success, `.error` with the exception text when the
analyzer round trip raised) and the `session_links` map afterwards. -/
structure ExtractOut where
  result : Except String (List (Nat × String))
  links : List (String × ElemIndex)
  deriving DecidableEq, Repr

/-- `BrowserManager.extract_and_store_links` (lines 186–241).  `analyzer` is
the outcome of reading `index.js` and running it in the page (`.error` when
any of that raised: the whole body up to the store is inside the `try`, so on
failure `session_links` is untouched and `{"success": False, "error": e}` is
returned).  On success the session's index is replaced wholesale: numbering
`enumerate(display_elements, 1)` over the interactive nodes. -/
def extract_and_store_links (links : List (String × ElemIndex)) (sid : String)
    (analyzer : Except String DomMap) : ExtractOut :=
  match analyzer with
  | .error e => { result := .error e, links := links }
  | .ok m =>
      let displayElements := (interactiveNodes m).map (displayElement m)
      let numbered := enumerate1 1 displayElements
      let newIndex : ElemIndex := numbered.map fun p => (p.1, p.2.1)
      let displayLinks := numbered.map fun p => (p.1, p.2.2)
      { result := .ok displayLinks, links := setKey links sid newIndex }

/-! ## Action results and the outcome-resolution protocol

`navigate` (lines 243–344) and `click_link` (lines 346–434) are embedded as
pure functions over an environment record fixing every external outcome: what
`page.goto` / the click raised, whether the download handler ran during the
bounded waits (setting `download_info`), the page's URL/title afterwards, and
the analyzer outcome for the post-action re-extraction.  Effects on the page
are reported in the output: how many times `page.on("download", ...)` and
`page.remove_listener` ran, and whether a click was issued. -/

/-- The result dict of a `navigate` / `click_link` call (only keys the code
can produce). -/
structure ActionResult where
  success : Bool
  error : Option String := none
  action_type : Option String := none
  url : Option String := none
  title : Option String := none
  links : List (Nat × String) := []
  download_info : Option String := none
  deriving DecidableEq, Repr

/-- Shorthand for the `{"success": False, "error": e}` dict the outer
`except` blocks build. -/
def failResult (e : String) : ActionResult := { success := false, error := some e }

/-- Page effects observed during one action. -/
structure PageEffects where
  listenersAdded : Nat
  listenersRemoved : Nat
  clicked : Bool
  deriving DecidableEq, Repr

/-- Outcome of the classification at lines 406–411 of `click_link`:
`download` when the handler set `download_info`, else `navigation` when URL or
title changed, else `no_change`. -/
def determineActionType (downloadInfo : Option String)
    (oldUrl oldTitle newUrl newTitle : String) : String :=
  if downloadInfo.isSome then "download"
  else if newUrl ≠ oldUrl ∨ newTitle ≠ oldTitle then "navigation"
  else "no_change"

/-- Environment for one `click_link` call. -/
structure ClickEnv where
  oldUrl : String
  oldTitle : String
  /-- exception text when `page.locator(f'xpath={xpath}').first.click()`
  raises, `none` when the click succeeds -/
  clickError : Option String
  /-- `download_info` as left by `handle_download` after the bounded wait
  (`none`: no download event fired) -/
  downloadInfo : Option String
  newUrl : String
  newTitle : String
  /-- outcome of the analyzer round trip in the re-extraction -/
  analyzer : Except String DomMap
  deriving Repr

/-- Output of one `click_link` call. -/
structure ClickOut where
  result : ActionResult
  links : List (String × ElemIndex)
  effects : PageEffects
  deriving DecidableEq, Repr

/-- `BrowserManager.click_link` (lines 346–434).

* no `session_links` entry → `"No active session"`;
* unknown element number → `"Invalid element number. Available: 1-{len}"`,
  before any listener is registered or click attempted;
* otherwise: register the download listener, record pre-click URL/title,
  click.  A click exception propagates to the outer `except` — the listener
  is **not** removed on that path.  On the non-raising path the bounded wait
  runs, the listener is removed, the action type is classified, and the page
  is re-extracted; an extraction failure dict is returned as the call's own
  result. -/
def click_link (links : List (String × ElemIndex)) (linkNumber : Nat)
    (sid : String) (env : ClickEnv) : ClickOut :=
  match lookupA links sid with
  | none =>
      { result := failResult "No active session", links := links,
        effects := ⟨0, 0, false⟩ }
  | some idx =>
      match lookupA idx linkNumber with
      | none =>
          { result := failResult
              ("Invalid element number. Available: 1-" ++ toString idx.length),
            links := links, effects := ⟨0, 0, false⟩ }
      | some _xpath =>
          -- page.on("download", handle_download); old_url/old_title recorded
          match env.clickError with
          | some e =>
              -- the exception jumps to the outer except: no remove_listener
              { result := failResult e, links := links,
                effects := ⟨1, 0, true⟩ }
          | none =>
              -- bounded wait, then remove_listener, then classification
              let actionType := determineActionType env.downloadInfo
                env.oldUrl env.oldTitle env.newUrl env.newTitle
              let ex := extract_and_store_links links sid env.analyzer
              match ex.result with
              | .error e =>
                  { result := failResult e, links := ex.links,
                    effects := ⟨1, 1, true⟩ }
              | .ok displayLinks =>
                  { result := { success := true,
                                action_type := some actionType,
                                url := some env.newUrl,
                                title := some env.newTitle,
                                links := displayLinks,
                                download_info := env.downloadInfo },
                    links := ex.links, effects := ⟨1, 1, true⟩ }

/-- The direct-download extension list of `navigate` (lines 272–275). -/
def likelyDownloadExts : List String :=
  [".dmg", ".exe", ".zip", ".pdf", ".doc", ".docx",
   ".xls", ".xlsx", ".ppt", ".pptx", ".rar", ".7z",
   ".tar", ".gz", ".iso", ".msi", ".deb", ".rpm"]

/-- Python's `needle in hay` on strings. -/
def strContainsSub (hay needle : String) : Bool :=
  go hay.toList
where
  go : List Char → Bool
    | [] => needle.toList.isPrefixOf ([] : List Char)
    | c :: rest => needle.toList.isPrefixOf (c :: rest) || go rest

/-- `any(url.lower().endswith(ext) for ext in [...])` (lines 272–275). -/
def isLikelyDownload (url : String) : Bool :=
  likelyDownloadExts.any fun ext => url.toLower.endsWith ext

/-- Environment for one `navigate` call. -/
structure NavEnv where
  /-- exception text when `page.goto` raises, `none` on a clean load -/
  gotoError : Option String
  /-- `download_info` as left by `handle_download` after the bounded waits -/
  downloadInfo : Option String
  pageTitle : String
  pageUrl : String
  analyzer : Except String DomMap
  deriving Repr

/-- Output of one `navigate` call. -/
structure NavOut where
  result : ActionResult
  links : List (String × ElemIndex)
  effects : PageEffects
  deriving DecidableEq, Repr

/-- `BrowserManager.navigate` (lines 243–344).

* register the download listener; `page.goto`;
* a goto exception whose text contains `net::ERR_ABORTED` or `Download is
  starting` is treated as a download trigger: wait (bounded) for the
  download signal, remove the listener, then either return the
  `direct_download` result or re-raise the navigation error (listener already
  removed).  Any other goto exception is re-raised at line 290 **before**
  `remove_listener` runs: the outer `except` returns a failure with the
  listener still attached;
* on a clean load: bounded wait for a download, remove the listener, read
  title and URL, and re-extract unless a download was detected on a
  likely-download URL.  An extraction failure is ignored — `links` stays
  `[]` and the result is still a success. -/
def navigate (links : List (String × ElemIndex)) (url : String) (sid : String)
    (env : NavEnv) : NavOut :=
  let likely := isLikelyDownload url
  match env.gotoError with
  | some e =>
      if strContainsSub e "net::ERR_ABORTED" || strContainsSub e "Download is starting" then
        match env.downloadInfo with
        | some di =>
            { result := { success := true, url := some url,
                          title := some "Direct Download", links := [],
                          download_info := some di,
                          action_type := some "direct_download" },
              links := links, effects := ⟨1, 1, false⟩ }
        | none =>
            -- `raise navigation_error` at line 314, after remove_listener
            { result := failResult e, links := links, effects := ⟨1, 1, false⟩ }
      else
        -- `raise` at line 290: outer except, remove_listener never runs
        { result := failResult e, links := links, effects := ⟨1, 0, false⟩ }
  | none =>
      let dlInfo := env.downloadInfo
      if dlInfo.isNone || !likely then
        let ex := extract_and_store_links links sid env.analyzer
        let pageLinks := match ex.result with
          | .ok ls => ls
          | .error _ => []
        { result := { success := true, url := some env.pageUrl,
                      title := some env.pageTitle, links := pageLinks,
                      download_info := dlInfo,
                      action_type :=
                        if dlInfo.isSome && likely then some "direct_download"
                        else none },
          links := ex.links, effects := ⟨1, 1, false⟩ }
      else
        { result := { success := true, url := some env.pageUrl,
                      title := some env.pageTitle, links := [],
                      download_info := dlInfo,
                      action_type :=
                        if dlInfo.isSome && likely then some "direct_download"
                        else none },
          links := links, effects := ⟨1, 1, false⟩ }

/-! ## File metadata (`get_file_metadata`, lines 46–114, and helpers) -/

/-- The double-quote character. -/
def dquote : Char := Char.ofNat 34

/-- The single-quote character. -/
def squote : Char := Char.ofNat 39

/-- The HTTP response headers `get_file_metadata` reads.  Header values are
strings in Python; `content-length` is embedded already parsed since the code
immediately applies `int(...)` to it. -/
structure HttpHeaders where
  contentDisposition : Option String := none
  contentType : Option String := none
  contentLength : Option Nat := none
  contentRange : Option String := none
  deriving DecidableEq, Repr

/-- Value of a hexadecimal digit. -/
def hexDigit (c : Char) : Option Nat :=
  if '0' ≤ c ∧ c ≤ '9' then some (c.toNat - 48)
  else if 'a' ≤ c ∧ c ≤ 'f' then some (c.toNat - 87)
  else if 'A' ≤ c ∧ c ≤ 'F' then some (c.toNat - 55)
  else none

/-- `urllib.parse.unquote`: decode `%XX` percent-escapes (bytewise; escapes
with invalid hex are left literal, as in Python).  The `Nat` fuel keeps the
recursion structural for the kernel; every step consumes at least one input
character per fuel unit, so fuel `l.length` is never exhausted. -/
def unquoteFuel : Nat → List Char → List Char
  | _, [] => []
  | 0, l => l
  | fuel + 1, '%' :: a :: b :: rest =>
      match hexDigit a, hexDigit b with
      | some x, some y => Char.ofNat (16 * x + y) :: unquoteFuel fuel rest
      | _, _ => '%' :: unquoteFuel fuel (a :: b :: rest)
  | fuel + 1, c :: rest => c :: unquoteFuel fuel rest

def unquoteList (l : List Char) : List Char := unquoteFuel l.length l

/-- `unquote` on a `String`. -/
def unquote (s : String) : String := String.mk (unquoteList s.toList)

/-- Match of the tail of the regex `filename[*]?=["\']?([^;"\']+)` at the
position right after the literal `filename`: optional `*`, then `=`, then an
optional opening quote, then a non-empty capture of characters other than
`;`, `"` and `'` (backtracking over the optional quote cannot succeed, since
a quote is excluded from the capture class, so this direct reading is
equivalent to the regex). -/
def matchFilenameAt (cs : List Char) : Option String :=
  let cs1 := match cs with
    | '*' :: r => r
    | r => r
  match cs1 with
  | '=' :: r =>
      let r1 := match r with
        | c :: rr => if c = dquote ∨ c = squote then rr else c :: rr
        | [] => []
      let cap := r1.takeWhile fun c => !(c == ';') && !(c == dquote) && !(c == squote)
      if cap = [] then none else some (String.mk cap)
  | _ => none

/-- `re.search(r'filename[*]?=["\']?([^;"\']+)', s)`: leftmost match wins. -/
def searchFilenameGo : List Char → Option String
  | [] => none
  | c :: rest =>
      if ("filename".toList).isPrefixOf (c :: rest) then
        match matchFilenameAt ((c :: rest).drop 8) with
        | some f => some f
        | none => searchFilenameGo rest
      else searchFilenameGo rest

/-- `extract_filename_from_headers` (lines 17–24): regex over a non-empty
`content-disposition` header, `unquote` applied to the captured group. -/
def extract_filename_from_headers (headers : HttpHeaders) : Option String :=
  let contentDisposition := headers.contentDisposition.getD ""
  if contentDisposition ≠ "" then
    match searchFilenameGo contentDisposition.toList with
    | some f => some (unquote f)
    | none => none
  else none

/-- The `mime_map` of `get_extension_from_content_type` (lines 29–39). -/
def mimeMap : List (String × String) :=
  [("application/pdf", ".pdf"), ("image/jpeg", ".jpg"), ("image/png", ".png"),
   ("image/gif", ".gif"), ("text/html", ".html"), ("text/plain", ".txt"),
   ("application/zip", ".zip"), ("application/json", ".json"),
   ("application/xml", ".xml")]

/-- `str.strip()` on whitespace. -/
def pyStrip (s : String) : String :=
  String.mk (((s.toList.dropWhile Char.isWhitespace).reverse.dropWhile
    Char.isWhitespace).reverse)

/-- `get_extension_from_content_type` (lines 27–43):
`mime_map.get(content_type.split(';')[0].strip(), '')` for a truthy
content-type, else `''`. -/
def get_extension_from_content_type (contentType : Option String) : String :=
  match contentType with
  | some s =>
      if s ≠ "" then
        let baseType := pyStrip (String.mk (s.toList.takeWhile fun c => !(c == ';')))
        (lookupA mimeMap baseType).getD ""
      else ""
  | none => ""

/-- `urlparse(url).path`: drop the fragment and query, skip past `scheme://`
and the netloc, keep from the first `/` on (empty when there is none; a URL
without `://` is all path, which is how `urlparse` treats scheme-less
inputs). -/
def urlPath (url : String) : String :=
  let cs := (url.toList.takeWhile fun c => !(c == '#')).takeWhile fun c => !(c == '?')
  match afterSchemeSep cs with
  | some rest => String.mk (rest.dropWhile fun c => !(c == '/'))
  | none => String.mk cs
where
  afterSchemeSep : List Char → Option (List Char)
    | ':' :: '/' :: '/' :: rest => some rest
    | _ :: rest => afterSchemeSep rest
    | [] => none

/-- `path.split('/')[-1]`: the suffix after the last `/` (the whole string
when there is no `/`). -/
def lastSegmentAfterSlash (s : String) : String :=
  String.mk ((s.toList.reverse.takeWhile fun c => !(c == '/')).reverse)

/-- `re.search(r'/(\d+)$', content_range)`: a non-empty run of digits at the
end of the string, immediately preceded by `/`. -/
def parseContentRangeSize (s : String) : Option Nat :=
  let rcs := s.toList.reverse
  let ds := rcs.takeWhile Char.isDigit
  match rcs.drop ds.length with
  | c :: _ =>
      if c = '/' ∧ ds ≠ [] then
        some (ds.reverse.foldl (fun acc d => 10 * acc + (d.toNat - 48)) 0)
      else none
  | [] => none

/-- The filename-resolution block duplicated at lines 55–63 (HEAD branch) and
85–93 (partial-GET branch): content-disposition match, else the unquoted last
URL-path segment, else `'download'` plus an extension guessed from
content-type. -/
def resolveFilename (headers : HttpHeaders) (url : String) : String :=
  match extract_filename_from_headers headers with
  | some f => f
  | none =>
      let filename := unquote (lastSegmentAfterSlash (urlPath url))
      if filename = "" ∨ filename.endsWith "/" then
        let base := "download"
        let ext := get_extension_from_content_type headers.contentType
        if ext ≠ "" ∧ ¬ base.endsWith ext then base ++ ext else base
      else filename

/-- The metadata dict `get_file_metadata` returns. -/
structure FileMetadata where
  filename : String
  url : String
  size : Nat
  content_type : String
  method : String
  deriving DecidableEq, Repr

/-- Network environment for one `get_file_metadata` call: each field is the
status and headers of the response, or `none` when the request itself
raised. -/
structure MetaEnv where
  headReq : Option (Nat × HttpHeaders)
  getReq : Option (Nat × HttpHeaders)
  deriving DecidableEq, Repr

/-- `get_file_metadata` (lines 46–114).

* HEAD first; `raise_for_status` makes any status ≥ 400 a failure;
* on HEAD failure, a ranged GET (`Range: bytes=0-0`): status 206 parses the
  total size out of `content-range`, any other status uses
  `content-length`;
* when the GET also fails, the outer `except` returns the URL-path-derived
  filename (or `'download'`), size 0 and content-type `"unknown"` — the
  function never raises. -/
def get_file_metadata (url : String) (env : MetaEnv) : FileMetadata :=
  let headOk : Option HttpHeaders :=
    match env.headReq with
    | some (status, headers) => if status ≥ 400 then none else some headers
    | none => none
  match headOk with
  | some headers =>
      { filename := resolveFilename headers url, url := url,
        size := headers.contentLength.getD 0,
        content_type := headers.contentType.getD "unknown",
        method := "head_request" }
  | none =>
      match env.getReq with
      | some (status, headers) =>
          let size :=
            if status = 206 then
              (parseContentRangeSize (headers.contentRange.getD "")).getD 0
            else headers.contentLength.getD 0
          { filename := resolveFilename headers url, url := url, size := size,
            content_type := headers.contentType.getD "unknown",
            method := "partial_get" }
      | none =>
          let filename := unquote (lastSegmentAfterSlash (urlPath url))
          { filename := if filename = "" then "download" else filename,
            url := url, size := 0, content_type := "unknown",
            method := "fallback" }

/-! ## Association-list lemmas -/

theorem lookupA_eq_none_iff {κ α : Type} [DecidableEq κ] :
    ∀ (l : List (κ × α)) (k : κ), lookupA l k = none ↔ k ∉ keysOf l
  | [], k => by simp [lookupA, keysOf]
  | (k', v) :: rest, k => by
      by_cases h : k = k'
      · simp [lookupA, keysOf, h]
      · simp [lookupA, keysOf, h, lookupA_eq_none_iff rest k]

theorem length_eraseKey {κ α : Type} [DecidableEq κ] :
    ∀ (l : List (κ × α)) (k : κ) (v : α), lookupA l k = some v →
      (eraseKey l k).length + 1 = l.length
  | [], k, v => by simp [lookupA]
  | (k', w) :: rest, k, v => by
      by_cases h : k = k'
      · intro _
        simp [eraseKey, h]
      · intro hl
        simp only [lookupA, if_neg h] at hl
        have := length_eraseKey rest k v hl
        simp [eraseKey, h]
        omega

theorem length_moveToEnd {κ α : Type} [DecidableEq κ] (l : List (κ × α)) (k : κ) :
    (moveToEnd l k).length = l.length := by
  unfold moveToEnd
  cases h : lookupA l k with
  | none => rfl
  | some v =>
      have := length_eraseKey l k v h
      simp [List.length_append]
      omega

theorem lookupA_append_none {κ α : Type} [DecidableEq κ] :
    ∀ (l₁ l₂ : List (κ × α)) (k : κ), lookupA l₁ k = none →
      lookupA (l₁ ++ l₂) k = lookupA l₂ k
  | [], _, _, _ => rfl
  | (k', v) :: rest, l₂, k, h => by
      by_cases hk : k = k'
      · simp [lookupA, hk] at h
      · simp only [lookupA, if_neg hk] at h
        simpa only [List.cons_append, lookupA, if_neg hk] using
          lookupA_append_none rest l₂ k h

theorem lookupA_append_some {κ α : Type} [DecidableEq κ] :
    ∀ (l₁ l₂ : List (κ × α)) (k : κ) (v : α), lookupA l₁ k = some v →
      lookupA (l₁ ++ l₂) k = some v
  | [], _, _, _, h => by simp [lookupA] at h
  | (k', w) :: rest, l₂, k, v, h => by
      by_cases hk : k = k'
      · simp only [lookupA, if_pos hk] at h
        simp [lookupA, hk, h]
      · simp only [lookupA, if_neg hk] at h
        simpa only [List.cons_append, lookupA, if_neg hk] using
          lookupA_append_some rest l₂ k v h

theorem lookupA_eraseKey_ne {κ α : Type} [DecidableEq κ] :
    ∀ (l : List (κ × α)) (key k : κ), k ≠ key →
      lookupA (eraseKey l key) k = lookupA l k
  | [], _, _, _ => rfl
  | (k', v) :: rest, key, k, h => by
      by_cases hk : key = k'
      · subst hk
        simp [eraseKey, lookupA, h]
      · by_cases hk2 : k = k'
        · simp [eraseKey, hk, lookupA, hk2]
        · simp only [eraseKey, if_neg hk, lookupA, if_neg hk2]
          exact lookupA_eraseKey_ne rest key k h

theorem lookupA_eraseKey_self {κ α : Type} [DecidableEq κ] :
    ∀ (l : List (κ × α)) (k : κ), (keysOf l).Nodup →
      lookupA (eraseKey l k) k = none
  | [], _, _ => rfl
  | (k', v) :: rest, k, h => by
      have hrest : (keysOf rest).Nodup := (List.nodup_cons.mp h).2
      by_cases hk : k = k'
      · subst hk
        simp only [eraseKey, if_pos rfl]
        rw [lookupA_eq_none_iff]
        exact (List.nodup_cons.mp h).1
      · simp only [eraseKey, if_neg hk, lookupA, if_neg hk]
        exact lookupA_eraseKey_self rest k hrest

theorem lookupA_setKey_self {κ α : Type} [DecidableEq κ] :
    ∀ (l : List (κ × α)) (k : κ) (v : α), lookupA (setKey l k v) k = some v
  | [], k, v => by simp [setKey, lookupA]
  | (k', w) :: rest, k, v => by
      by_cases hk : k = k'
      · simp [setKey, hk, lookupA]
      · simp only [setKey, if_neg hk, lookupA, if_neg hk]
        exact lookupA_setKey_self rest k v

theorem lookupA_setKey_ne {κ α : Type} [DecidableEq κ] :
    ∀ (l : List (κ × α)) (key k : κ) (v : α), k ≠ key →
      lookupA (setKey l key v) k = lookupA l k
  | [], key, k, v, h => by simp [setKey, lookupA, h]
  | (k', w) :: rest, key, k, v, h => by
      by_cases hk : key = k'
      · subst hk
        simp [setKey, lookupA, h]
      · by_cases hk2 : k = k'
        · simp [setKey, hk, lookupA, hk2]
        · simp only [setKey, if_neg hk, lookupA, if_neg hk2]
          exact lookupA_setKey_ne rest key k v h

theorem enumerate1_map_fst {α : Type} :
    ∀ (s : Nat) (l : List α), (enumerate1 s l).map Prod.fst = List.range' s l.length
  | s, [] => by simp [enumerate1]
  | s, x :: xs => by
      simp only [enumerate1, List.map_cons, List.length_cons, List.range'_succ]
      rw [enumerate1_map_fst (s + 1) xs]

theorem enumerate1_length {α : Type} (s : Nat) (l : List α) :
    (enumerate1 s l).length = l.length := by
  have h := congrArg List.length (enumerate1_map_fst s l)
  simpa using h

/-! ## Store lemmas -/

theorem goc_maxSessions (st : StoreState) (ctr : Nat) (sid : String)
    (closeErr : Option String) :
    (getOrCreateSession st ctr sid closeErr).store.maxSessions = st.maxSessions := by
  unfold getOrCreateSession
  repeat' split
  all_goals rfl

theorem goc_length_le (st : StoreState) (ctr : Nat) (sid : String)
    (closeErr : Option String) (h : st.sessions.length ≤ st.maxSessions) :
    (getOrCreateSession st ctr sid closeErr).store.sessions.length ≤ st.maxSessions := by
  unfold getOrCreateSession
  split
  · next sess _ =>
      simpa [length_moveToEnd] using h
  · split
    · next hge =>
        split
        · next hnil => exact h
        · next oid odata rest hcons =>
            rw [hcons] at h
            simp only [List.length_cons] at h
            split
            · simp only []
              omega
            · simp only [List.length_append, List.length_cons, List.length_nil]
              omega
    · next hlt =>
        simp only [List.length_append, List.length_cons, List.length_nil]
        omega

theorem runTrace_length_le :
    ∀ (sids : List String) (st : StoreState) (ctr : Nat),
      st.sessions.length ≤ st.maxSessions →
      ∀ s ∈ runTrace st ctr sids, s.sessions.length ≤ s.maxSessions
  | [], _, _, _ => by simp [runTrace]
  | sid :: rest, st, ctr, h => by
      intro s hs
      have h1 : (getOrCreateSession st ctr sid).store.sessions.length ≤
          (getOrCreateSession st ctr sid).store.maxSessions := by
        rw [goc_maxSessions]
        exact goc_length_le st ctr sid none h
      simp only [runTrace, List.mem_cons] at hs
      rcases hs with rfl | hs
      · exact h1
      · exact runTrace_length_le rest _ _ h1 s hs

/-! ## Claim theorems -/

/-- **C1.** For every capacity `N` and every sequence of
`get_or_create_session` calls, after each call completes the store holds at
most `N` sessions; and when the `N+1`-th distinct session id is inserted into
a full store, exactly one entry — the least-recently-touched (the head of the
LRU order) — is removed, its page and context closed (`closed` lists exactly
it) and its element index discarded, before the new entry is admitted at the
most-recently-used end. -/
theorem getOrCreate_capacity_invariant_and_eviction
    (st : StoreState) (ctr : Nat) (sids : List String)
    (hlen : st.sessions.length ≤ st.maxSessions) :
    (∀ s ∈ runTrace st ctr sids, s.sessions.length ≤ s.maxSessions) ∧
    (∀ (sid oid : String) (odata : Session) (rest : List (String × Session)),
      lookupA st.sessions sid = none →
      st.sessions.length = st.maxSessions →
      st.sessions = (oid, odata) :: rest →
      (keysOf st.sessionLinks).Nodup →
      (getOrCreateSession st ctr sid).closed = [(oid, odata)] ∧
      (getOrCreateSession st ctr sid).store.sessions
        = rest ++ [(sid, ⟨ctr, ctr + 1⟩)] ∧
      lookupA (getOrCreateSession st ctr sid).store.sessionLinks oid = none ∧
      (getOrCreateSession st ctr sid).store.sessions.length = st.maxSessions) := by
  refine ⟨runTrace_length_le sids st ctr hlen, ?_⟩
  intro sid oid odata rest hnone hfull hcons hnd
  have hoidsid : ¬ sid = oid := by
    rw [hcons] at hnone
    simp only [lookupA] at hnone
    intro h
    rw [if_pos h] at hnone
    exact Option.noConfusion hnone
  rw [hcons] at hnone hfull
  have hge : st.sessions.length ≥ st.maxSessions := by
    rw [hcons, hfull]
  rw [hcons] at hge
  have hred : getOrCreateSession st ctr sid =
      { store := { st with
          sessions := rest ++ [(sid, ⟨ctr, ctr + 1⟩)],
          sessionLinks := setKey (eraseKey st.sessionLinks oid) sid [] },
        ctr := ctr + 2, ret := some (ctr + 1), closed := [(oid, odata)] } := by
    simp only [getOrCreateSession, hcons, hnone]
    rw [if_pos hge]
  rw [hred]
  refine ⟨rfl, rfl, ?_, ?_⟩
  · rw [lookupA_setKey_ne _ sid oid _ fun h => hoidsid h.symm]
    exact lookupA_eraseKey_self st.sessionLinks oid hnd
  · simp only [List.length_append, List.length_cons, List.length_nil]
    simp only [List.length_cons] at hfull
    omega

/-- Witness for C1: a store at capacity 1 holding `A`; `get_or_create_session
"B"` evicts exactly `A`. -/
theorem getOrCreate_capacity_invariant_and_eviction_witness :
    (StoreState.mk [("A", ⟨0, 1⟩)] [("A", [])] 1).sessions.length ≤
      (StoreState.mk [("A", ⟨0, 1⟩)] [("A", [])] 1).maxSessions ∧
    (getOrCreateSession (StoreState.mk [("A", ⟨0, 1⟩)] [("A", [])] 1) 2 "B").closed
      = [("A", ⟨0, 1⟩)] :=
  ⟨by decide,
   ((getOrCreate_capacity_invariant_and_eviction
      (StoreState.mk [("A", ⟨0, 1⟩)] [("A", [])] 1) 2 ["B"] (by decide)).2
      "B" "A" ⟨0, 1⟩ [] (by decide) (by decide) (by decide) (by decide)).1⟩

/-- **C2.** Looking an existing session id up via `get_or_create_session`
moves it to the most-recently-used end; eviction removes the
least-recently-touched entry (the head); and concretely, with capacity `N = 2`
and touches `A, B, A, C`, the session closed when `C` is admitted is `B`
(created as context/page pair `⟨2, 3⟩`), not `A`. -/
theorem lru_touch_order :
    (∀ (st : StoreState) (ctr : Nat) (sid : String) (sess : Session),
      lookupA st.sessions sid = some sess →
      (getOrCreateSession st ctr sid).store.sessions
        = eraseKey st.sessions sid ++ [(sid, sess)]) ∧
    (∀ (st : StoreState) (ctr : Nat) (sid oid : String) (odata : Session)
        (rest : List (String × Session)),
      lookupA st.sessions sid = none →
      st.sessions = (oid, odata) :: rest →
      st.sessions.length ≥ st.maxSessions →
      (getOrCreateSession st ctr sid).closed = [(oid, odata)]) ∧
    runClosed ⟨[], [], 2⟩ 0 ["A", "B", "A", "C"]
      = [[], [], [], [("B", ⟨2, 3⟩)]] := by
  refine ⟨?_, ?_, by decide⟩
  · intro st ctr sid sess h
    simp only [getOrCreateSession, h]
    simp [moveToEnd, h]
  · intro st ctr sid oid odata rest hnone hcons hge
    rw [hcons] at hnone hge
    simp only [getOrCreateSession, hcons, hnone]
    rw [if_pos hge]

/-- Witness for C2: touching existing `A` in a store holding `A, B` moves `A`
behind `B`. -/
theorem lru_touch_order_witness :
    lookupA [("A", (⟨0, 1⟩ : Session)), ("B", ⟨2, 3⟩)] "A" = some ⟨0, 1⟩ ∧
    (getOrCreateSession
        ⟨[("A", ⟨0, 1⟩), ("B", ⟨2, 3⟩)], [("A", []), ("B", [])], 4⟩ 9
        "A").store.sessions
      = [("B", ⟨2, 3⟩), ("A", ⟨0, 1⟩)] :=
  ⟨by decide, by
    have h := lru_touch_order.1
      ⟨[("A", ⟨0, 1⟩), ("B", ⟨2, 3⟩)], [("A", []), ("B", [])], 4⟩ 9 "A" ⟨0, 1⟩
      (by decide)
    simpa [eraseKey] using h⟩

/-- **C10.** Calling `get_or_create_session` with an id already in the store
returns that session's stored page, closes nothing, creates no new resources,
leaves `session_links` (every session's element index) untouched, leaves the
looked-up entry's value and every other session's entry unchanged, and the
only mutation to the store is moving the id to the most-recently-used end. -/
theorem get_existing_session_frame (st : StoreState) (ctr : Nat) (sid : String)
    (sess : Session) (hnd : (keysOf st.sessions).Nodup)
    (hlk : lookupA st.sessions sid = some sess) :
    (getOrCreateSession st ctr sid).ret = some sess.page ∧
    (getOrCreateSession st ctr sid).store.sessionLinks = st.sessionLinks ∧
    (getOrCreateSession st ctr sid).closed = [] ∧
    (getOrCreateSession st ctr sid).ctr = ctr ∧
    lookupA (getOrCreateSession st ctr sid).store.sessions sid = some sess ∧
    (∀ k, k ≠ sid → lookupA (getOrCreateSession st ctr sid).store.sessions k
        = lookupA st.sessions k) ∧
    (getOrCreateSession st ctr sid).store.sessions
      = eraseKey st.sessions sid ++ [(sid, sess)] ∧
    (getOrCreateSession st ctr sid).store.maxSessions = st.maxSessions := by
  have hred : getOrCreateSession st ctr sid =
      { store := { st with sessions := moveToEnd st.sessions sid },
        ctr := ctr, ret := some sess.page, closed := [] } := by
    simp only [getOrCreateSession, hlk]
  have hmv : moveToEnd st.sessions sid = eraseKey st.sessions sid ++ [(sid, sess)] := by
    simp [moveToEnd, hlk]
  rw [hred]
  refine ⟨rfl, rfl, rfl, rfl, ?_, ?_, hmv, rfl⟩
  · show lookupA (moveToEnd st.sessions sid) sid = some sess
    rw [hmv, lookupA_append_none _ _ _ (lookupA_eraseKey_self st.sessions sid hnd)]
    simp [lookupA]
  · intro k hk
    show lookupA (moveToEnd st.sessions sid) k = lookupA st.sessions k
    rw [hmv]
    cases hv : lookupA (eraseKey st.sessions sid) k with
    | some v =>
        rw [lookupA_append_some _ _ _ _ hv]
        rw [lookupA_eraseKey_ne st.sessions sid k hk] at hv
        exact hv.symm
    | none =>
        rw [lookupA_append_none _ _ _ hv]
        rw [lookupA_eraseKey_ne st.sessions sid k hk] at hv
        rw [hv]
        simp [lookupA, hk]

/-- Witness for C10: looking `A` up in a two-session store returns its stored
page id. -/
theorem get_existing_session_frame_witness :
    (keysOf [("A", (⟨0, 1⟩ : Session)), ("B", ⟨2, 3⟩)]).Nodup ∧
    lookupA [("A", (⟨0, 1⟩ : Session)), ("B", ⟨2, 3⟩)] "A" = some ⟨0, 1⟩ ∧
    (getOrCreateSession
        ⟨[("A", ⟨0, 1⟩), ("B", ⟨2, 3⟩)], [("A", []), ("B", [])], 4⟩ 9
        "A").ret = some 1 :=
  ⟨by decide, by decide,
   (get_existing_session_frame
      ⟨[("A", ⟨0, 1⟩), ("B", ⟨2, 3⟩)], [("A", []), ("B", [])], 4⟩ 9 "A" ⟨0, 1⟩
      (by decide) (by decide)).1⟩

theorem map_pair_fst {β γ : Type} (nl : List (Nat × β)) (g : Nat × β → γ) :
    (nl.map fun p => (p.1, g p)).map Prod.fst = nl.map Prod.fst := by
  rw [List.map_map]
  rfl

/-- **C7.** For every analyzer result with `k` interactive nodes, extraction
returns element numbers exactly `1..k` — contiguous from 1, no gaps or
duplicates — and stores an index with those same numbers, entirely replacing
the session's prior mapping (the stored value does not depend on it) while
leaving other sessions' indices alone; `k = 0` yields an empty index and a
success result, not an error. -/
theorem extract_numbering (links : List (String × ElemIndex)) (sid : String)
    (m : DomMap) (k : Nat) (hk : k = (interactiveNodes m).length) :
    (∃ ls, (extract_and_store_links links sid (.ok m)).result = .ok ls ∧
      ls.map Prod.fst = List.range' 1 k ∧
      (ls.map Prod.fst).Nodup ∧
      (∀ n, n ∈ ls.map Prod.fst ↔ 1 ≤ n ∧ n ≤ k)) ∧
    (∃ idx, lookupA (extract_and_store_links links sid (.ok m)).links sid = some idx ∧
      idx.map Prod.fst = List.range' 1 k ∧ idx.length = k) ∧
    (∀ s, s ≠ sid →
      lookupA (extract_and_store_links links sid (.ok m)).links s = lookupA links s) ∧
    (k = 0 → (extract_and_store_links links sid (.ok m)).result = .ok []) := by
  have hred : extract_and_store_links links sid (.ok m) =
      { result := .ok ((enumerate1 1 ((interactiveNodes m).map (displayElement m))).map
          fun p => (p.1, p.2.2)),
        links := setKey links sid
          ((enumerate1 1 ((interactiveNodes m).map (displayElement m))).map
            fun p => (p.1, p.2.1)) } := rfl
  have hdlen : ((interactiveNodes m).map (displayElement m)).length = k := by
    rw [List.length_map, hk]
  have hfst : ∀ (g : Nat × (String × String) → String),
      ((enumerate1 1 ((interactiveNodes m).map (displayElement m))).map
          fun p => (p.1, g p)).map Prod.fst = List.range' 1 k := by
    intro g
    rw [map_pair_fst, enumerate1_map_fst, hdlen]
  rw [hred]
  refine ⟨⟨_, rfl, hfst _, ?_, ?_⟩, ⟨_, lookupA_setKey_self _ _ _, hfst _, ?_⟩,
    ?_, ?_⟩
  · rw [hfst]
    exact List.nodup_range' 1 k
  · intro n
    rw [hfst, List.mem_range'_1]
    omega
  · rw [List.length_map, enumerate1_length, hdlen]
  · intro s hs
    exact lookupA_setKey_ne _ _ _ _ hs
  · intro hk0
    have : (interactiveNodes m).map (displayElement m) = [] := by
      rw [← List.length_eq_zero]
      rw [hdlen, hk0]
    simp only [this, enumerate1, List.map_nil]

/-- Witness for C7: an analyzer map with two interactive nodes (and one
non-interactive) yields numbers `1, 2`. -/
theorem extract_numbering_witness :
    (2 = (interactiveNodes
        [(3, ⟨some "a", true, [("href", "/x")], [], some "//a[1]", none, none⟩),
         (5, ⟨some "div", false, [], [], some "//div[1]", none, none⟩),
         (9, ⟨some "button", true, [], [], some "//button[1]", none, none⟩)]).length) ∧
    (∃ ls, (extract_and_store_links [("S", [(1, "//old")])] "S"
        (.ok [(3, ⟨some "a", true, [("href", "/x")], [], some "//a[1]", none, none⟩),
              (5, ⟨some "div", false, [], [], some "//div[1]", none, none⟩),
              (9, ⟨some "button", true, [], [], some "//button[1]", none, none⟩)])).result
        = .ok ls ∧
      ls.map Prod.fst = List.range' 1 2 ∧
      (ls.map Prod.fst).Nodup ∧
      (∀ n, n ∈ ls.map Prod.fst ↔ 1 ≤ n ∧ n ≤ 2)) :=
  ⟨by decide,
   (extract_numbering [("S", [(1, "//old")])] "S"
      [(3, ⟨some "a", true, [("href", "/x")], [], some "//a[1]", none, none⟩),
       (5, ⟨some "div", false, [], [], some "//div[1]", none, none⟩),
       (9, ⟨some "button", true, [], [], some "//button[1]", none, none⟩)]
      2 (by decide)).1⟩

/-- **C5.** For a session whose element index carries the contiguous numbers
`1..k`, `click_link` on any number outside `1..k` returns `success = false`
with an error naming the valid range `1-k`, registers no listener, attempts no
click, and leaves the store (hence every element index) unchanged. -/
theorem click_out_of_range (links : List (String × ElemIndex)) (sid : String)
    (idx : ElemIndex) (k n : Nat) (env : ClickEnv)
    (hidx : lookupA links sid = some idx)
    (hkeys : idx.map Prod.fst = List.range' 1 k)
    (hn : n < 1 ∨ k < n) :
    click_link links n sid env =
      { result := failResult ("Invalid element number. Available: 1-" ++ toString k),
        links := links, effects := ⟨0, 0, false⟩ } := by
  have hnone : lookupA idx n = none := by
    rw [lookupA_eq_none_iff]
    rw [show keysOf idx = idx.map Prod.fst from rfl, hkeys, List.mem_range'_1]
    omega
  have hlen : idx.length = k := by
    have h := congrArg List.length hkeys
    simpa using h
  simp only [click_link, hidx, hnone, hlen]

/-- Witness for C5: an index of size 1, clicked at number 2. -/
theorem click_out_of_range_witness :
    lookupA [("S", [(1, "//a[1]")])] "S" = some [(1, "//a[1]")] ∧
    [((1 : Nat), "//a[1]")].map Prod.fst = List.range' 1 1 ∧
    click_link [("S", [(1, "//a[1]")])] 2 "S"
        ⟨"https://e/", "t", none, none, "https://e/", "t", .ok []⟩ =
      { result := failResult ("Invalid element number. Available: 1-" ++ toString 1),
        links := [("S", [(1, "//a[1]")])], effects := ⟨0, 0, false⟩ } :=
  ⟨by decide, by decide,
   click_out_of_range [("S", [(1, "//a[1]")])] "S" [(1, "//a[1]")] 1 2
     ⟨"https://e/", "t", none, none, "https://e/", "t", .ok []⟩
     (by decide) (by decide) (by decide)⟩

/-- **C4.** For a click that completes at the browser level (the click raised
nothing) and whose re-extraction succeeds: a download signal during the
bounded wait makes `action_type = "download"`, whatever the URL/title did;
with no download, a URL or title change makes it `"navigation"`; with neither,
`"no_change"`. -/
theorem click_action_type (links : List (String × ElemIndex)) (sid : String)
    (idx : ElemIndex) (n : Nat) (xp : String) (env : ClickEnv) (m : DomMap)
    (hs : lookupA links sid = some idx)
    (hn : lookupA idx n = some xp)
    (hclick : env.clickError = none)
    (hm : env.analyzer = .ok m) :
    (env.downloadInfo.isSome →
      (click_link links n sid env).result.action_type = some "download") ∧
    (env.downloadInfo = none →
      (env.newUrl ≠ env.oldUrl ∨ env.newTitle ≠ env.oldTitle) →
      (click_link links n sid env).result.action_type = some "navigation") ∧
    (env.downloadInfo = none → env.newUrl = env.oldUrl →
      env.newTitle = env.oldTitle →
      (click_link links n sid env).result.action_type = some "no_change") := by
  have hred : (click_link links n sid env).result.action_type
      = some (determineActionType env.downloadInfo env.oldUrl env.oldTitle
          env.newUrl env.newTitle) := by
    simp only [click_link, hs, hn, hclick, hm, extract_and_store_links]
  rw [hred]
  unfold determineActionType
  refine ⟨?_, ?_, ?_⟩
  · intro h
    rw [if_pos h]
  · intro h hne
    rw [if_neg (by simp [h]), if_pos hne]
  · intro h hu ht
    rw [if_neg (by simp [h]), if_neg (by simp [hu, ht])]

/-- Witness for C4: a download signal with unchanged URL and title still tags
the click `download`. -/
theorem click_action_type_witness :
    (ClickEnv.mk "https://e/" "t" none (some "f.bin") "https://e/" "t"
        (.ok [])).downloadInfo.isSome ∧
    (click_link [("S", [(1, "//a[1]")])] 1 "S"
        ⟨"https://e/", "t", none, some "f.bin", "https://e/", "t",
          .ok []⟩).result.action_type = some "download" :=
  ⟨by decide,
   (click_action_type [("S", [(1, "//a[1]")])] "S" [(1, "//a[1]")] 1 "//a[1]"
      ⟨"https://e/", "t", none, some "f.bin", "https://e/", "t", .ok []⟩ []
      (by decide) (by decide) (by decide) (by decide)).1 (by decide)⟩

/-- Counterexample to **C6** as stated: a `navigate` whose page load succeeds
but whose post-action re-extraction fails returns a success result (with an
empty element list), not the extraction failure — the claim holds only for
`click_link`. -/
theorem navigate_extraction_failure_cex :
    (navigate [("S", [])] "https://example.com/page" "S"
        ⟨none, none, "Example", "https://example.com/page",
          .error "Page.evaluate: Execution context was destroyed"⟩).result.success
        = true ∧
    (navigate [("S", [])] "https://example.com/page" "S"
        ⟨none, none, "Example", "https://example.com/page",
          .error "Page.evaluate: Execution context was destroyed"⟩).result.error
        = none := by
  exact ⟨by decide, by decide⟩

/-- **C6 (amended).** A click whose browser-level action succeeds but whose
re-extraction fails returns the extraction failure as its own failure
(`success = false` with the extraction error); a navigate in the same
situation swallows the extraction failure and returns success with an empty
element list. -/
theorem extraction_failure_handling :
    (∀ (links : List (String × ElemIndex)) (sid : String) (idx : ElemIndex)
        (n : Nat) (xp : String) (env : ClickEnv) (e : String),
      lookupA links sid = some idx →
      lookupA idx n = some xp →
      env.clickError = none →
      env.analyzer = .error e →
      (click_link links n sid env).result = failResult e) ∧
    (∀ (links : List (String × ElemIndex)) (url sid : String) (env : NavEnv)
        (e : String),
      env.gotoError = none →
      env.analyzer = .error e →
      (env.downloadInfo.isNone || !isLikelyDownload url) = true →
      (navigate links url sid env).result.success = true ∧
      (navigate links url sid env).result.links = [] ∧
      (navigate links url sid env).result.error = none) := by
  constructor
  · intro links sid idx n xp env e hs hn hc ha
    simp only [click_link, hs, hn, hc, ha, extract_and_store_links]
  · intro links url sid env e hg ha hcond
    simp only [navigate, hg, ha, extract_and_store_links, hcond, if_true]
    refine ⟨?_, ?_, ?_⟩ <;> simp

/-- Witness for C6 (amended): a failing analyzer script turns a successful
click into that failure. -/
theorem extraction_failure_handling_witness :
    lookupA [("S", [(1, "//a[1]")])] "S" = some [(1, "//a[1]")] ∧
    (click_link [("S", [(1, "//a[1]")])] 1 "S"
        ⟨"https://e/", "t", none, none, "https://e/", "t",
          .error "detached frame"⟩).result = failResult "detached frame" :=
  ⟨by decide,
   extraction_failure_handling.1 [("S", [(1, "//a[1]")])] "S" [(1, "//a[1]")]
     1 "//a[1]"
     ⟨"https://e/", "t", none, none, "https://e/", "t", .error "detached frame"⟩
     "detached frame" (by decide) (by decide) (by decide) (by decide)⟩

/-- **C3** evaluated at failing inputs (the claim is right, the code slips —
the spec itself records that some exit paths never remove the observer): a
`navigate` whose `page.goto` raises a non-download error returns through the
outer handler with the download observer still attached (`1` added, `0`
removed), and likewise a `click_link` whose click raises. -/
theorem download_listener_leak :
    (navigate [] "https://example.com/" "S"
        ⟨some "net::ERR_NAME_NOT_RESOLVED at https://example.com/", none,
          "", "", .ok []⟩).effects = ⟨1, 0, false⟩ ∧
    (click_link [("S", [(1, "//a[1]")])] 1 "S"
        ⟨"https://example.com/", "Example",
          some "Element is not attached to the DOM", none,
          "https://example.com/", "Example", .ok []⟩).effects = ⟨1, 0, true⟩ := by
  exact ⟨by decide, by decide⟩

/-- Counterexample to **C8** as stated: with a full store, a close error while
evicting during `get_or_create_session` is *not* swallowed — the call raises
(`ret = none`), the caller's new session is never created, and the evicted
session's element index is left behind. -/
theorem eviction_close_error_propagates :
    (getOrCreateSession ⟨[("A", ⟨0, 1⟩)], [("A", [])], 1⟩ 2 "B"
        (some "TargetClosedError")).ret = none ∧
    lookupA (getOrCreateSession ⟨[("A", ⟨0, 1⟩)], [("A", [])], 1⟩ 2 "B"
        (some "TargetClosedError")).store.sessions "B" = none ∧
    lookupA (getOrCreateSession ⟨[("A", ⟨0, 1⟩)], [("A", [])], 1⟩ 2 "B"
        (some "TargetClosedError")).store.sessionLinks "A" = some [] := by
  exact ⟨by decide, by decide, by decide⟩

/-- **C8 (amended).** Close errors during `close` (close_all) are logged and
swallowed — the teardown always completes, clearing both maps, whichever
closes fail — but a close error during LRU eviction inside
`get_or_create_session` propagates to the caller: the call returns no page,
the evicted entry is already popped, its element index is not discarded, and
the new session is not admitted. -/
theorem close_error_handling :
    (∀ (st : StoreState) (closeFails : String → Bool),
      (closeAll st closeFails).1 =
        { sessions := [], sessionLinks := [], maxSessions := st.maxSessions }) ∧
    (∀ (st : StoreState) (ctr : Nat) (sid e oid : String) (odata : Session)
        (rest : List (String × Session)),
      lookupA st.sessions sid = none →
      st.sessions = (oid, odata) :: rest →
      st.sessions.length ≥ st.maxSessions →
      (getOrCreateSession st ctr sid (some e)).ret = none ∧
      (getOrCreateSession st ctr sid (some e)).store.sessions = rest ∧
      (getOrCreateSession st ctr sid (some e)).store.sessionLinks
        = st.sessionLinks) := by
  constructor
  · intro st closeFails
    rfl
  · intro st ctr sid e oid odata rest hnone hcons hge
    rw [hcons] at hnone hge
    have hred : getOrCreateSession st ctr sid (some e) =
        { store := { st with sessions := rest }, ctr := ctr, ret := none,
          closed := [] } := by
      simp only [getOrCreateSession, hcons, hnone]
      rw [if_pos hge]
    rw [hred]
    exact ⟨rfl, rfl, rfl⟩

/-- Witness for C8 (amended): a teardown where every close fails still clears
the store. -/
theorem close_error_handling_witness :
    (closeAll ⟨[("A", ⟨0, 1⟩), ("B", ⟨2, 3⟩)], [("A", [])], 4⟩
        (fun _ => true)).1 =
      { sessions := [], sessionLinks := [], maxSessions := 4 } :=
  close_error_handling.1 ⟨[("A", ⟨0, 1⟩), ("B", ⟨2, 3⟩)], [("A", [])], 4⟩
    (fun _ => true)

/-- **C9.** `get_file_metadata` tries HEAD first (statuses below 400 are
successes and use the HEAD headers); on HEAD failure it falls back to a
ranged GET, parsing the total size out of `content-range` on a 206; when both
fail it returns the URL-path-derived filename (or `download`), size 0 and
content-type `unknown` — and, being a total function, never raises.  In the
HEAD and GET branches the filename resolution order is: `content-disposition`
match, then the URL path's last segment, then the placeholder `download` with
an extension guessed from the content-type. -/
theorem get_file_metadata_resolution :
    (∀ (url : String) (env : MetaEnv) (status : Nat) (headers : HttpHeaders),
      env.headReq = some (status, headers) → status < 400 →
      get_file_metadata url env =
        { filename := resolveFilename headers url, url := url,
          size := headers.contentLength.getD 0,
          content_type := headers.contentType.getD "unknown",
          method := "head_request" }) ∧
    (∀ (url : String) (env : MetaEnv) (status : Nat) (headers : HttpHeaders),
      (env.headReq = none ∨ ∃ s h, env.headReq = some (s, h) ∧ 400 ≤ s) →
      env.getReq = some (status, headers) →
      get_file_metadata url env =
        { filename := resolveFilename headers url, url := url,
          size := if status = 206 then
              (parseContentRangeSize (headers.contentRange.getD "")).getD 0
            else headers.contentLength.getD 0,
          content_type := headers.contentType.getD "unknown",
          method := "partial_get" }) ∧
    (∀ (url : String) (env : MetaEnv),
      (env.headReq = none ∨ ∃ s h, env.headReq = some (s, h) ∧ 400 ≤ s) →
      env.getReq = none →
      get_file_metadata url env =
        { filename := if unquote (lastSegmentAfterSlash (urlPath url)) = ""
              then "download" else unquote (lastSegmentAfterSlash (urlPath url)),
          url := url, size := 0, content_type := "unknown",
          method := "fallback" }) ∧
    (∀ (headers : HttpHeaders) (url f : String),
      extract_filename_from_headers headers = some f →
      resolveFilename headers url = f) ∧
    (∀ (headers : HttpHeaders) (url : String),
      extract_filename_from_headers headers = none →
      unquote (lastSegmentAfterSlash (urlPath url)) ≠ "" →
      ¬ (unquote (lastSegmentAfterSlash (urlPath url))).endsWith "/" →
      resolveFilename headers url = unquote (lastSegmentAfterSlash (urlPath url))) ∧
    (∀ (headers : HttpHeaders) (url : String),
      extract_filename_from_headers headers = none →
      (unquote (lastSegmentAfterSlash (urlPath url)) = "" ∨
        (unquote (lastSegmentAfterSlash (urlPath url))).endsWith "/") →
      resolveFilename headers url =
        (if get_extension_from_content_type headers.contentType ≠ "" ∧
            ¬ ("download" : String).endsWith
                (get_extension_from_content_type headers.contentType)
          then "download" ++ get_extension_from_content_type headers.contentType
          else "download")) := by
  refine ⟨?_, ?_, ?_, ?_, ?_, ?_⟩
  · intro url env status headers h hlt
    simp only [get_file_metadata, h]
    rw [if_neg (by omega)]
  · intro url env status headers hfail hget
    rcases hfail with hnone | ⟨s, hd, heq, hge⟩
    · simp only [get_file_metadata, hnone, hget]
    · simp only [get_file_metadata, heq, hget]
      rw [if_pos hge]
  · intro url env hfail hget
    rcases hfail with hnone | ⟨s, hd, heq, hge⟩
    · simp only [get_file_metadata, hnone, hget]
    · simp only [get_file_metadata, heq, hget]
      rw [if_pos hge]
  · intro headers url f h
    simp only [resolveFilename, h]
  · intro headers url h hne hslash
    simp only [resolveFilename, h]
    rw [if_neg (by
      intro hc
      rcases hc with hc | hc
      · exact hne hc
      · exact hslash hc)]
  · intro headers url h hcase
    simp only [resolveFilename, h]
    rw [if_pos hcase]

/-- Witness for C9: both probes failing yields the URL-path filename,
size 0 and content-type `unknown`. -/
theorem get_file_metadata_resolution_witness :
    (MetaEnv.mk none none).headReq = none ∧
    (MetaEnv.mk none none).getReq = none ∧
    get_file_metadata "https://h/a/file.bin" ⟨none, none⟩ =
      { filename := "file.bin", url := "https://h/a/file.bin", size := 0,
        content_type := "unknown", method := "fallback" } := by
  refine ⟨rfl, rfl, ?_⟩
  have h := get_file_metadata_resolution.2.2.1 "https://h/a/file.bin"
    ⟨none, none⟩ (Or.inl rfl) rfl
  rw [h]
  decide

end Browser
